import Mathlib

/-!
Verification of the YAFFS unpacker (`yaffs_unpack.py`).

This file is a shallow embedding of the format-detection and
tree-reconstruction engine of the unpacker: byte-order sniffing,
object-header decoding (fixed 512-byte little/big-endian layout),
page-geometry probing, the parent-chain path walk, and the
materialization loop (directory creation and file-content assembly).

Modelling conventions:
- a byte stream is a `List Nat` of byte values (each < 256 on real input);
- the file cursor is an explicit position; `read n` is `(drop pos).take n`
  and advances the cursor by the number of bytes actually obtained,
  `seek` from the current position adds to the cursor (Python permits
  seeking past the end of file);
- Python exceptions become `Except` values (`struct.error` from a short
  buffer, `ValueError` from an out-of-range enum value, and the
  unpacker's own exception classes);
- the decoded `name` and `alias` strings are kept as their raw byte
  prefixes: the Python code applies `bytes.decode` to exactly the bytes
  returned here, and a prefix is empty iff its decoded text is empty.
-/

set_option maxRecDepth 4096

deriving instance DecidableEq for Except

/-- Byte order selected by `detect_endianness` (cstruct.LITTLE_ENDIAN or
cstruct.BIG_ENDIAN in the source). -/
inductive Endianness where
  | le
  | be
deriving DecidableEq, Repr

/-- Failures of the decoding pipeline.  `structError` is Python's
`struct.error` (buffer shorter than the fixed struct), `valueError` is the
`ValueError` raised when a `CEnum` field holds a value outside the
enumeration, `corruptedType` is the unpacker's `CorruptedType` exception
and `wrongPageSize` its `WrongPageSize` exception (the spec calls the
latter `UnknownPageSize`). -/
inductive YErr where
  | structError
  | valueError
  | corruptedType
  | wrongPageSize
deriving DecidableEq, Repr

/-- Byte of `data` at index `i`, 0 past the end (indexing used by the
fixed-offset field reads of the struct layout). -/
def byteAt : List Nat → Nat → Nat
  | [], _ => 0
  | b :: _, 0 => b
  | _ :: rest, i + 1 => byteAt rest i

/-- Decode an unsigned 16-bit integer at offset `off` of `data` in the
given byte order. -/
def readU16 (e : Endianness) (data : List Nat) (off : Nat) : Nat :=
  match e with
  | .le => byteAt data off + 256 * byteAt data (off + 1)
  | .be => 256 * byteAt data off + byteAt data (off + 1)

/-- Decode an unsigned 32-bit integer at offset `off` of `data` in the
given byte order. -/
def readU32 (e : Endianness) (data : List Nat) (off : Nat) : Nat :=
  match e with
  | .le => byteAt data off + 256 * byteAt data (off + 1)
          + 65536 * byteAt data (off + 2) + 16777216 * byteAt data (off + 3)
  | .be => 16777216 * byteAt data off + 65536 * byteAt data (off + 1)
          + 256 * byteAt data (off + 2) + byteAt data (off + 3)

/-- The raw bytes of a fixed-width field: `len` bytes starting at byte
offset `off`. -/
def field_bytes (data : List Nat) (off len : Nat) : List Nat :=
  (data.drop off).take len

/-- The `yaffs_obj_type` enumeration (six variants, raw values 0–5). -/
inductive yaffs_obj_type where
  | UNKNOWN
  | FILE
  | SYMLINK
  | DIRECTORY
  | HARDLINK
  | SPECIAL
deriving DecidableEq, Repr

/-- Conversion of a raw 32-bit value into the `yaffs_obj_type` enumeration,
as performed by the cstruct `CEnum` field unpacking: a value outside 0–5
raises `ValueError`. -/
def decode_type (v : Nat) : Except YErr yaffs_obj_type :=
  match v with
  | 0 => .ok .UNKNOWN
  | 1 => .ok .FILE
  | 2 => .ok .SYMLINK
  | 3 => .ok .DIRECTORY
  | 4 => .ok .HARDLINK
  | 5 => .ok .SPECIAL
  | _ => .error .valueError

/-- Embedding of `c_null_term_str_to_str` (the decoded text kept as raw
bytes): all bytes `0xFF` gives the empty string, otherwise
`data.split(b'\x00')[0]`, the bytes strictly before the first null byte
(the whole field when no null byte occurs). -/
def c_null_term_str_to_str (data : List Nat) : List Nat :=
  if data.all (fun b => b == 0xFF) then []
  else data.takeWhile (fun b => b != 0)

/-- The normalized object record built by `get_ObjHdr` (the Python
`ObjHdr` class). -/
structure ObjHdr where
  type : yaffs_obj_type
  parent_obj_id : Nat
  name : List Nat
  file_mode : Nat
  uid : Nat
  gid : Nat
  atime : Nat
  mtime : Nat
  ctime : Nat
  file_size : Int
  «alias» : List Nat
deriving DecidableEq, Repr

/-- Size in bytes of the packed `yaffs_obj_hdr` struct: 4 (type) +
4 (parent_obj_id) + 2 + 255 (name) + 1 + 2 + 4*7 (mode, uid, gid, atime,
mtime, ctime, file_size_low) + 4 (equiv_id) + 160 (alias) + 4 (rdev) +
24 (three u32[2] Windows times) + 4 + 4 + 4 (file_size_high) + 4 + 4 + 4
= 512. -/
def yaffs_obj_hdr_size : Nat := 512

/-- Embedding of `yaffs_obj_hdr.get_ObjHdr`: unpack the fixed 512-byte
layout in byte order `e` (a shorter buffer raises `struct.error`, an
out-of-range `type` raises `ValueError`) and build the normalized record,
applying the sentinel string rule to `name` and `alias` and the
file-size assembly rule (`file_size_low` at offset 292, `file_size_high`
at offset 496, sentinel high word `0xFFFFFFFF`; `-1` for non-File
records). -/
def get_ObjHdr (e : Endianness) (data : List Nat) : Except YErr ObjHdr :=
  if data.length < yaffs_obj_hdr_size then .error .structError
  else
    match decode_type (readU32 e data 0) with
    | .error err => .error err
    | .ok t =>
      .ok {
        type := t
        parent_obj_id := readU32 e data 4
        name := c_null_term_str_to_str (field_bytes data 10 255)
        file_mode := readU32 e data 268
        uid := readU32 e data 272
        gid := readU32 e data 276
        atime := readU32 e data 280
        mtime := readU32 e data 284
        ctime := readU32 e data 288
        file_size :=
          if t = .FILE then
            if readU32 e data 496 ≠ 0xFFFFFFFF then
              (Nat.lor (readU32 e data 292) (readU32 e data 496 <<< 32) : Int)
            else (readU32 e data 292 : Int)
          else -1
        «alias» := c_null_term_str_to_str (field_bytes data 300 160) }

/-- Embedding of `detect_endianness`: dispatch on the type field of the
magic preview as decoded little-endian (the initial byte order of
`yaffs_magic_header`). -/
def detect_endianness (t : Nat) : Except YErr Endianness :=
  if t ∈ [0x1, 0x2, 0x3, 0x4, 0x5] then .ok .le
  else if t ∈ [0x1 <<< 24, 0x2 <<< 24, 0x3 <<< 24, 0x4 <<< 24, 0x4 <<< 24, 0x5 <<< 24] then
    .ok .be
  else .error .corruptedType

/-- Embedding of `YAFFS_unpacker._test_page_size`: read `page_size` bytes
from offset 0 and require every byte beyond the fixed header-structure
length to be the fill byte `0xFF`. -/
def test_page_size (stream : List Nat) (page_size : Nat) : Bool :=
  ((stream.take page_size).drop yaffs_obj_hdr_size).all (fun b => b == 0xFF)

/-- The candidate page sizes probed by `_detect_param`, in source order
(descending). -/
def allowed_page_size : List Nat := [16384, 8192, 4096, 2048, 512]

/-- The `for page_size in allowed_page_size: ... break` loop of
`_detect_param`: the first candidate passing `_test_page_size`, if any. -/
def find_first_page_size (stream : List Nat) : List Nat → Option Nat
  | [] => none
  | c :: cs => if test_page_size stream c then some c else find_first_page_size stream cs

/-- The page-size probe of `_detect_param`: the sentinel `-1` left after
the loop becomes the `WrongPageSize` exception. -/
def detect_page_size (stream : List Nat) : Except YErr Nat :=
  match find_first_page_size stream allowed_page_size with
  | some ps => .ok ps
  | none => .error .wrongPageSize

/-- The geometry computed by `_detect_param` (fields of `YAFFS_unpacker`
set by it). -/
structure Geometry where
  endianness : Endianness
  yaffs_version : Nat
  page_size : Nat
  spare_size : Nat
deriving DecidableEq, Repr

/-- Embedding of `YAFFS_unpacker._detect_param`: unpack the 10-byte magic
preview little-endian and sniff the byte order from its type field;
decode the first full header in that byte order; when both `name` and
`alias` are empty assume version 1 with page size 512 and spare size
512 / 32; otherwise assume version 2 and probe the candidate page sizes,
spare size page / 32. -/
def detect_param (stream : List Nat) : Except YErr Geometry :=
  if stream.length < 10 then .error .structError
  else
    match detect_endianness (readU32 .le stream 0) with
    | .error err => .error err
    | .ok endi =>
      match get_ObjHdr endi (stream.take yaffs_obj_hdr_size) with
      | .error err => .error err
      | .ok hdr =>
        if hdr.name = [] ∧ hdr.alias = [] then
          .ok ⟨endi, 1, 512, 512 / 32⟩
        else
          match detect_page_size stream with
          | .error err => .error err
          | .ok ps => .ok ⟨endi, 2, ps, ps / 32⟩

/-- Spec-side predicate, following the words of the specification: `ps` is
the first candidate in the descending probe order whose probe passes,
stated as: `ps` is a passing candidate and every larger candidate fails
(the candidate list is strictly descending, so earlier in the list means
larger). -/
def spec_first_passing (stream : List Nat) (ps : Nat) : Prop :=
  ps ∈ allowed_page_size ∧ test_page_size stream ps = true ∧
    ∀ q ∈ allowed_page_size, ps < q → test_page_size stream q = false

/-- The registry of decoded records (`YAFFS_unpacker.objdict`), an
association of object ids to records. -/
abbrev Registry := List (Nat × ObjHdr)

/-- Dictionary lookup `objdict[obj_id]` (with `obj_id in objdict` being
`isSome`). -/
def reg_find (reg : Registry) (objId : Nat) : Option ObjHdr :=
  List.lookup objId reg

/-- One step along the parent chain: the `parent_obj_id` of the record
registered under `i`, or `i` itself when `i` is not registered (the walk
stops there). -/
def idStep (reg : Registry) (i : Nat) : Nat :=
  match reg_find reg i with
  | some h => h.parent_obj_id
  | none => i

/-- The id reached after following the parent chain `n` times from `i`. -/
def idAt (reg : Registry) (i : Nat) : Nat → Nat
  | 0 => i
  | n + 1 => idStep reg (idAt reg i n)

/-- Fuel-bounded embedding of the `_unwind_parent_name` generator loop
(`while obj_id in self.objdict: yield name; obj_id = parent`): `some`
names when the loop exits within the given fuel, `none` when the fuel is
exhausted with the walk still inside the registry. -/
def unwind_parent_name (reg : Registry) : Nat → Nat → Option (List (List Nat))
  | 0, objId =>
    match reg_find reg objId with
    | none => some []
    | some _ => none
  | fuel + 1, objId =>
    match reg_find reg objId with
    | none => some []
    | some h => Option.map (fun l => h.name :: l) (unwind_parent_name reg fuel h.parent_obj_id)

/-- The `_unwind_parent_name` loop terminates on `objId`: some finite fuel
suffices for the walk to leave the registry. -/
def unwind_terminates (reg : Registry) (objId : Nat) : Prop :=
  ∃ fuel, (unwind_parent_name reg fuel objId).isSome = true

/-- Outcome of one iteration of the `unpack` loop up to the type dispatch:
the caught decode failure (`struct.error` / `ValueError`, the `break`
treated as end of stream), a header handed to materialization
(Directory, File or Symlink), or the fatal `WrongYaffsObjType` exception
raised in the `else` branch. -/
inductive StepResult where
  | endOfStream
  | materialize (hdr : ObjHdr)
  | wrongYaffsObjType (t : yaffs_obj_type)
deriving DecidableEq, Repr

/-- Embedding of one iteration of the `unpack` loop: read one page at the
cursor, decode its first `yaffs_obj_hdr_size` bytes, break on a decode
exception, raise `WrongYaffsObjType` for a well-decoded type other than
Directory, File or Symlink. -/
def unpack_step (e : Endianness) (page_size : Nat) (stream : List Nat) (pos : Nat) :
    StepResult :=
  match get_ObjHdr e (((stream.drop pos).take page_size).take yaffs_obj_hdr_size) with
  | .error _ => .endOfStream
  | .ok hdr =>
    match hdr.type with
    | .DIRECTORY => .materialize hdr
    | .FILE => .materialize hdr
    | .SYMLINK => .materialize hdr
    | t => .wrongYaffsObjType t

/-- Embedding of the File branch of the `unpack` loop: `num_pages =
(file_size + page_size - 1) // page_size` content pages are read starting
at cursor `pos`; every page but the last is written in full, the last is
written as `page_data[: file_size % page_size]`; after each page the
spare area is skipped.  Returns the bytes written to the output file and
the final cursor position. -/
def unpack_file (stream : List Nat) (pos page_size spare_size file_size : Nat) :
    List Nat × Nat :=
  let num_pages := (file_size + page_size - 1) / page_size
  (List.range num_pages).foldl
    (fun st i_page =>
      let page_data := (stream.drop st.2).take page_size
      (st.1 ++ (if i_page < num_pages - 1 then page_data
                else page_data.take (file_size % page_size)),
       st.2 + page_data.length + spare_size))
    ([], pos)

/-- Errors of the modelled filesystem calls. -/
inductive OSError where
  | fileExists
deriving DecidableEq, Repr

/-- A filesystem path, as the list of its name components. -/
abbrev FsPath := List (List Nat)

/-- Semantics of the `os.mkdir` call: on a path that already exists the
call raises `FileExistsError`, otherwise the directory is created.  The
state is the set of existing paths. -/
def os_mkdir (fs : List FsPath) (path : FsPath) : Except OSError (List FsPath) :=
  if path ∈ fs then .error .fileExists else .ok (path :: fs)

/-- The Directory branch of the `unpack` loop: a single unguarded
`os.mkdir(obj_path)` call. -/
def materialize_directory (fs : List FsPath) (path : FsPath) :
    Except OSError (List FsPath) :=
  os_mkdir fs path

/-- Embedding of the little-endian branch of `detect_yaffs`: the regular
expression `[\x01-\x05] 00 00 00 01 00 00 00 FF FF` matched against the
first ten bytes. -/
def yaffs_le_match (d : List Nat) : Bool :=
  match d with
  | b0 :: b1 :: b2 :: b3 :: b4 :: b5 :: b6 :: b7 :: b8 :: b9 :: _ =>
    decide (1 ≤ b0 ∧ b0 ≤ 5 ∧ b1 = 0 ∧ b2 = 0 ∧ b3 = 0 ∧ b4 = 1 ∧ b5 = 0 ∧
      b6 = 0 ∧ b7 = 0 ∧ b8 = 0xFF ∧ b9 = 0xFF)
  | _ => false

/-- Embedding of the big-endian branch of `detect_yaffs`: the regular
expression `00 00 00 [\x01-\x05] 00 00 00 01 FF FF` matched against the
first ten bytes. -/
def yaffs_be_match (d : List Nat) : Bool :=
  match d with
  | b0 :: b1 :: b2 :: b3 :: b4 :: b5 :: b6 :: b7 :: b8 :: b9 :: _ =>
    decide (b0 = 0 ∧ b1 = 0 ∧ b2 = 0 ∧ 1 ≤ b3 ∧ b3 ≤ 5 ∧ b4 = 0 ∧ b5 = 0 ∧
      b6 = 0 ∧ b7 = 1 ∧ b8 = 0xFF ∧ b9 = 0xFF)
  | _ => false

/-- Embedding of `detect_yaffs`: the first ten bytes of the image matched
against either byte-order pattern. -/
def detect_yaffs (d : List Nat) : Bool :=
  yaffs_le_match d || yaffs_be_match d

/-- Concrete content stream for the exact-multiple File scenario: 528
bytes, one 512-byte content page followed by a 16-byte spare area. -/
def c1stream : List Nat := List.replicate 528 0xAA

/-- Concrete 512-byte header page of a File record with name "a",
`file_size_low = 100` (offset 292) and `file_size_high = 1` (offset 496);
every other field byte is the fill byte `0xFF`. -/
def c2data : List Nat :=
  [1, 0, 0, 0, 1, 0, 0, 0, 0xFF, 0xFF, 97, 0] ++ List.replicate 280 0xFF ++
    [100, 0, 0, 0] ++ List.replicate 200 0xFF ++ [1, 0, 0, 0] ++ List.replicate 12 0xFF

/-- The record decoded from `c2data`. -/
def c2hdr : ObjHdr :=
  ⟨.FILE, 1, [97], 0xFFFFFFFF, 0xFFFFFFFF, 0xFFFFFFFF, 0xFFFFFFFF, 0xFFFFFFFF,
    0xFFFFFFFF, 4294967396, []⟩

/-- Concrete 512-byte stream whose first header is a Directory named "a"
(non-empty name, so geometry detection takes the version-2 branch). -/
def c3stream : List Nat :=
  [3, 0, 0, 0, 1, 0, 0, 0, 0xFF, 0xFF, 97, 0] ++ List.replicate 500 0xFF

/-- The record decoded from `c3stream`. -/
def c3hdr : ObjHdr :=
  ⟨.DIRECTORY, 1, [97], 0xFFFFFFFF, 0xFFFFFFFF, 0xFFFFFFFF, 0xFFFFFFFF, 0xFFFFFFFF,
    0xFFFFFFFF, -1, []⟩

/-- Concrete 512-byte page whose type field holds the out-of-range value
6; its remaining bytes are the fill byte. -/
def c7page : List Nat := [6, 0, 0, 0] ++ List.replicate 508 0xFF

/-- Concrete 512-byte header page of a Hardlink record (type 4, a
recognized but unsupported variant). -/
def c7hardlink : List Nat :=
  [4, 0, 0, 0, 1, 0, 0, 0, 0xFF, 0xFF, 97, 0] ++ List.replicate 500 0xFF

/-- The record decoded from `c7hardlink`. -/
def c7hdr : ObjHdr :=
  ⟨.HARDLINK, 1, [97], 0xFFFFFFFF, 0xFFFFFFFF, 0xFFFFFFFF, 0xFFFFFFFF, 0xFFFFFFFF,
    0xFFFFFFFF, -1, []⟩

/-- A directory record whose parent pointer is `p`. -/
def hdr_with_parent (p : Nat) : ObjHdr :=
  ⟨.DIRECTORY, p, [100], 0, 0, 0, 0, 0, 0, -1, []⟩

/-- A registry whose single record is its own parent: the parent chain is
a self-cycle. -/
def cyclic_reg : Registry := [(257, hdr_with_parent 257)]

/-- A registry with a two-element parent cycle 300 -> 301 -> 300. -/
def two_cycle_reg : Registry :=
  [(300, hdr_with_parent 301), (301, hdr_with_parent 300)]

/-! ## Helper lemmas -/

theorem takeWhile_prefix_before_null (pre post : List Nat) (hpre : 0 ∉ pre) :
    (pre ++ 0 :: post).takeWhile (fun b => b != 0) = pre := by
  induction pre with
  | nil => simp
  | cons a l ih =>
    have ha : a ≠ 0 := fun h => hpre (by simp [h])
    have hl : 0 ∉ l := fun h => hpre (List.mem_cons_of_mem a h)
    simp only [List.cons_append, List.takeWhile_cons]
    have hba : (a != 0) = true := by simpa [bne_iff_ne] using ha
    rw [hba]
    simp only [if_true]
    rw [ih hl]

theorem decode_type_gt5 (v : Nat) (h : 5 < v) : decode_type v = .error .valueError := by
  match v, h with
  | 0, h | 1, h | 2, h | 3, h | 4, h | 5, h => omega
  | n + 6, _ => rfl

/-! ## Claim theorems -/

/-- Claim C1 (code_bug evidence): on a File record whose `file_size` is an
exact nonzero multiple of the page size (file_size 512, page size 512,
spare size 16), the File branch of the unpack loop pulls exactly one
content page (the cursor ends at 512 + 16 = 528) but writes the empty
slice `page_data[: 512 % 512]` for the final page, so the output file
holds 0 bytes instead of the required 512. -/
theorem unpack_file_exact_multiple_truncates :
    unpack_file c1stream 0 512 16 512 = ([], 528) := by decide

/-- Claim C6: the sentinel string rule of `c_null_term_str_to_str`. A
field consisting entirely of the fill byte `0xFF` decodes to the empty
string; any other field whose bytes split as `pre ++ 0 :: post` with no
null byte in `pre` decodes to exactly `pre` — the bytes strictly before
the first null byte, regardless of the content `post` after it. -/
theorem c_null_term_str_to_str_spec (data : List Nat) :
    (data.all (fun b => b == 0xFF) = true → c_null_term_str_to_str data = []) ∧
    (data.all (fun b => b == 0xFF) = false →
      ∀ pre post, data = pre ++ 0 :: post → 0 ∉ pre →
        c_null_term_str_to_str data = pre) := by
  constructor
  · intro h
    simp [c_null_term_str_to_str, h]
  · intro h pre post hsplit hpre
    subst hsplit
    rw [c_null_term_str_to_str, if_neg (by simp [h])]
    exact takeWhile_prefix_before_null pre post hpre

/-- Witness for C6 at a concrete field: bytes "a\x00b" decode to "a". -/
theorem c_null_term_str_to_str_spec_witness :
    c_null_term_str_to_str [97, 0, 98] = [97] :=
  (c_null_term_str_to_str_spec [97, 0, 98]).2 (by decide) [97] [98] rfl (by decide)

/-- Claim C8 (counterexample): the Directory branch of the unpack loop is
a bare `os.mkdir` call, so materializing a directory whose resolved path
already exists fails with `FileExistsError` instead of succeeding. -/
theorem materialize_directory_existing_fails :
    materialize_directory [[[97]]] [[97]] = .error .fileExists := by decide

/-- Claim C8 (amended): directory materialization fails with
`FileExistsError` exactly when the resolved path already exists, and
creates the directory when it does not; creation is not idempotent. -/
theorem materialize_directory_spec (fs : List FsPath) (path : FsPath) :
    (path ∈ fs → materialize_directory fs path = .error .fileExists) ∧
    (path ∉ fs → materialize_directory fs path = .ok (path :: fs)) := by
  constructor <;> intro h <;> simp [materialize_directory, os_mkdir, h]

/-- Witness for the amended C8: creating a directory in an empty
filesystem succeeds. -/
theorem materialize_directory_spec_witness :
    materialize_directory [] [[97]] = .ok [[[97]]] :=
  (materialize_directory_spec [] [[97]]).2 (by decide)

/-- Claim C10: when the stream yields no bytes beyond the fixed
header-structure length (every stream of at most 512 bytes), the all-0xFF
spare probe passes vacuously for the first candidate, so the version-2
page-size probe selects the largest candidate 16384 regardless of the
stream's contents. -/
theorem short_stream_selects_largest_page_size (stream : List Nat)
    (h : stream.length ≤ yaffs_obj_hdr_size) :
    test_page_size stream 16384 = true ∧ detect_page_size stream = .ok 16384 := by
  have ht : test_page_size stream 16384 = true := by
    unfold test_page_size
    rw [List.take_of_length_le (by unfold yaffs_obj_hdr_size at h; omega),
      List.drop_eq_nil_of_le h]
    rfl
  refine ⟨ht, ?_⟩
  simp [detect_page_size, allowed_page_size, find_first_page_size, ht]

/-- Witness for C10 at a concrete 3-byte stream. -/
theorem short_stream_selects_largest_page_size_witness :
    test_page_size [1, 2, 3] 16384 = true ∧ detect_page_size [1, 2, 3] = .ok 16384 :=
  short_stream_selects_largest_page_size [1, 2, 3] (by decide)

theorem unwind_cyclic_none (fuel : Nat) :
    unwind_parent_name cyclic_reg fuel 257 = none := by
  induction fuel with
  | zero => rfl
  | succ n ih =>
    have hfind : reg_find cyclic_reg 257 = some (hdr_with_parent 257) := rfl
    simp only [unwind_parent_name, hfind]
    rw [show (hdr_with_parent 257).parent_obj_id = 257 from rfl, ih]
    rfl

/-- Claim C4 (counterexample): on a registry whose single record is its
own parent, the `_unwind_parent_name` walk never terminates — no finite
fuel lets the loop leave the registry — and no `CorruptedTree` error is
raised (the source has no such error at all); the claimed terminating
failure does not happen. -/
theorem unwind_parent_name_cycle_loops : ¬ unwind_terminates cyclic_reg 257 := by
  rintro ⟨fuel, h⟩
  rw [unwind_cyclic_none fuel] at h
  exact absurd h (by decide)

theorem idAt_parent_shift (reg : Registry) (objId : Nat) (h : ObjHdr)
    (hfind : reg_find reg objId = some h) (n : Nat) :
    idAt reg h.parent_obj_id n = idAt reg objId (n + 1) := by
  induction n with
  | zero => simp [idAt, idStep, hfind]
  | succ m ih => simp only [idAt, ih]

theorem unwind_stuck_aux (reg : Registry) (fuel : Nat) :
    ∀ objId, (∀ n, (reg_find reg (idAt reg objId n)).isSome = true) →
      unwind_parent_name reg fuel objId = none := by
  induction fuel with
  | zero =>
    intro objId hin
    have h0 := hin 0
    rw [show idAt reg objId 0 = objId from rfl] at h0
    rcases hfind : reg_find reg objId with _ | h
    · rw [hfind] at h0; exact absurd h0 (by decide)
    · simp only [unwind_parent_name, hfind]
  | succ m ih =>
    intro objId hin
    have h0 := hin 0
    rw [show idAt reg objId 0 = objId from rfl] at h0
    rcases hfind : reg_find reg objId with _ | h
    · rw [hfind] at h0; exact absurd h0 (by decide)
    · have hin' : ∀ n, (reg_find reg (idAt reg h.parent_obj_id n)).isSome = true := by
        intro n
        rw [idAt_parent_shift reg objId h hfind n]
        exact hin (n + 1)
      simp only [unwind_parent_name, hfind, ih h.parent_obj_id hin', Option.map_none']

/-- Claim C4 (amended): whenever the parent chain starting from `objId`
never leaves the registry — in particular whenever it runs into a cycle —
the `_unwind_parent_name` walk of the reference implementation does not
terminate: no amount of fuel makes the loop exit.  The code loops forever
on such input instead of failing with a `CorruptedTree` error. -/
theorem unwind_parent_name_in_registry_nonterm (reg : Registry) (objId : Nat)
    (hin : ∀ n, (reg_find reg (idAt reg objId n)).isSome = true) :
    ¬ unwind_terminates reg objId := by
  rintro ⟨fuel, h⟩
  rw [unwind_stuck_aux reg fuel objId hin] at h
  exact absurd h (by decide)

/-- Witness for the amended C4 on the concrete two-element parent cycle
300 -> 301 -> 300. -/
theorem unwind_parent_name_in_registry_nonterm_witness :
    ¬ unwind_terminates two_cycle_reg 300 :=
  unwind_parent_name_in_registry_nonterm two_cycle_reg 300 (by
    intro n
    have key : ∀ m, idAt two_cycle_reg 300 m = 300 ∨ idAt two_cycle_reg 300 m = 301 := by
      intro m
      induction m with
      | zero => exact Or.inl rfl
      | succ k ih =>
        rcases ih with h | h <;> simp only [idAt] <;> rw [h]
        · exact Or.inr rfl
        · exact Or.inl rfl
    rcases key n with h | h <;> rw [h] <;> decide)

theorem mem_shifted_iff (t : Nat) :
    (t ∈ [0x1 <<< 24, 0x2 <<< 24, 0x3 <<< 24, 0x4 <<< 24, 0x4 <<< 24, 0x5 <<< 24]) ↔
      ∃ v, v ∈ [1, 2, 3, 4, 5] ∧ t = v <<< 24 := by
  constructor
  · intro h
    simp only [List.mem_cons, List.not_mem_nil, or_false] at h
    rcases h with h | h | h | h | h | h
    · exact ⟨1, by simp, h⟩
    · exact ⟨2, by simp, h⟩
    · exact ⟨3, by simp, h⟩
    · exact ⟨4, by simp, h⟩
    · exact ⟨4, by simp, h⟩
    · exact ⟨5, by simp, h⟩
  · rintro ⟨v, hv, ht⟩
    simp only [List.mem_cons, List.not_mem_nil, or_false] at hv
    rcases hv with rfl | rfl | rfl | rfl | rfl <;> rw [ht] <;> simp

/-- Claim C5: `detect_endianness` returns little-endian exactly when the
(little-endian decoded) type field of the magic preview is in
{1, 2, 3, 4, 5}; it returns big-endian exactly when that value is
`v <<< 24` for some v in {1, 2, 3, 4, 5}; and it raises the
`CorruptedType` exception (the spec's `CorruptedFormat`) for every other
value. -/
theorem detect_endianness_characterization (t : Nat) :
    (detect_endianness t = .ok .le ↔ t ∈ [1, 2, 3, 4, 5]) ∧
    (detect_endianness t = .ok .be ↔ ∃ v, v ∈ [1, 2, 3, 4, 5] ∧ t = v <<< 24) ∧
    (detect_endianness t = .error .corruptedType ↔
      ¬ t ∈ [1, 2, 3, 4, 5] ∧ ¬ ∃ v, v ∈ [1, 2, 3, 4, 5] ∧ t = v <<< 24) := by
  have hdisj : t ∈ [(1 : Nat), 2, 3, 4, 5] →
      ¬ ∃ v, v ∈ [(1 : Nat), 2, 3, 4, 5] ∧ t = v <<< 24 := by
    rintro ht ⟨v, hv, hteq⟩
    simp only [List.mem_cons, List.not_mem_nil, or_false] at ht hv
    rcases hv with rfl | rfl | rfl | rfl | rfl <;> rw [hteq] at ht <;> revert ht <;> decide
  by_cases h1 : t ∈ [(1 : Nat), 2, 3, 4, 5]
  · have hd := hdisj h1
    unfold detect_endianness
    rw [if_pos h1]
    exact ⟨⟨fun _ => h1, fun _ => rfl⟩,
      ⟨fun h => absurd h (by decide), fun h => absurd h hd⟩,
      ⟨fun h => absurd h (by decide), fun h => absurd h1 h.1⟩⟩
  · by_cases h2 : t ∈ [(0x1 : Nat) <<< 24, 0x2 <<< 24, 0x3 <<< 24, 0x4 <<< 24,
        0x4 <<< 24, 0x5 <<< 24]
    · unfold detect_endianness
      rw [if_neg h1, if_pos h2]
      have hex : ∃ v, v ∈ [(1 : Nat), 2, 3, 4, 5] ∧ t = v <<< 24 := (mem_shifted_iff t).mp h2
      exact ⟨⟨fun h => absurd h (by decide), fun h => absurd h h1⟩,
        ⟨fun _ => hex, fun _ => rfl⟩,
        ⟨fun h => absurd h (by decide), fun h => absurd hex h.2⟩⟩
    · unfold detect_endianness
      rw [if_neg h1, if_neg h2]
      have hnex : ¬ ∃ v, v ∈ [(1 : Nat), 2, 3, 4, 5] ∧ t = v <<< 24 :=
        fun h => h2 ((mem_shifted_iff t).mpr h)
      exact ⟨⟨fun h => absurd h (by decide), fun h => absurd h h1⟩,
        ⟨fun h => absurd h (by decide), fun h => absurd h hnex⟩,
        ⟨fun _ => ⟨h1, hnex⟩, fun _ => rfl⟩⟩

/-- Claim C7 (counterexample): a page whose decoded type value is the
out-of-range 6 does not produce the fatal `WrongYaffsObjType` error; the
`ValueError` raised during decoding is caught by the unpack loop and the
page is treated as end-of-stream. -/
theorem unpack_step_invalid_type_is_eos :
    unpack_step .le 512 c7page 0 = .endOfStream := by decide

/-- Claim C7 (amended): a decoded type value outside the six enumerated
variants makes header decoding raise an exception that the unpack loop
catches and treats as end-of-stream, while the fatal `WrongYaffsObjType`
error is raised exactly for well-decoded headers whose type is the
recognized but unsupported Unknown, Hardlink or Special. -/
theorem unpack_step_type_dispatch (e : Endianness) (page_size : Nat)
    (stream : List Nat) (pos : Nat) :
    (5 < readU32 e (((stream.drop pos).take page_size).take yaffs_obj_hdr_size) 0 →
      unpack_step e page_size stream pos = .endOfStream) ∧
    (∀ hdr,
      get_ObjHdr e (((stream.drop pos).take page_size).take yaffs_obj_hdr_size) = .ok hdr →
      hdr.type = .UNKNOWN ∨ hdr.type = .HARDLINK ∨ hdr.type = .SPECIAL →
      unpack_step e page_size stream pos = .wrongYaffsObjType hdr.type) := by
  constructor
  · intro h
    unfold unpack_step
    have herr : ∃ err, get_ObjHdr e
        (((stream.drop pos).take page_size).take yaffs_obj_hdr_size) = .error err := by
      unfold get_ObjHdr
      by_cases hl : (((stream.drop pos).take page_size).take yaffs_obj_hdr_size).length <
          yaffs_obj_hdr_size
      · exact ⟨_, by rw [if_pos hl]⟩
      · rw [if_neg hl, decode_type_gt5 _ h]
        exact ⟨_, rfl⟩
    rcases herr with ⟨err, he⟩
    rw [he]
  · intro hdr hok ht
    obtain ⟨ty, pid, nm, fm, u, g, a1, m1, c1, fs, al⟩ := hdr
    unfold unpack_step
    rw [hok]
    cases ty <;> rcases ht with h | h | h <;> (try cases h) <;> rfl

/-- Witness for the amended C7: a 4-byte stream with type value 6 ends the
scan, and a well-formed Hardlink header raises `WrongYaffsObjType`. -/
theorem unpack_step_type_dispatch_witness :
    unpack_step .le 512 [6, 0, 0, 0] 0 = .endOfStream ∧
    unpack_step .le 512 c7hardlink 0 = .wrongYaffsObjType .HARDLINK := by
  constructor
  · exact (unpack_step_type_dispatch .le 512 [6, 0, 0, 0] 0).1 (by decide)
  · exact (unpack_step_type_dispatch .le 512 c7hardlink 0).2 c7hdr (by decide) (by decide)

/-- Claim C2: for every header that `get_ObjHdr` decodes successfully,
when the type is File the assembled `file_size` equals the low word
`file_size_low` (offset 292) alone when the high word `file_size_high`
(offset 496) is the sentinel `0xFFFFFFFF`, and equals
`file_size_low ||| (file_size_high <<< 32)` otherwise; for every type
other than File, `file_size` is `-1`. -/
theorem get_ObjHdr_file_size_assembly (e : Endianness) (data : List Nat) (hdr : ObjHdr)
    (h : get_ObjHdr e data = .ok hdr) :
    (hdr.type = .FILE →
      hdr.file_size =
        if readU32 e data 496 = 0xFFFFFFFF then (readU32 e data 292 : Int)
        else (Nat.lor (readU32 e data 292) (readU32 e data 496 <<< 32) : Int)) ∧
    (hdr.type ≠ .FILE → hdr.file_size = -1) := by
  unfold get_ObjHdr at h
  by_cases hl : data.length < yaffs_obj_hdr_size
  · rw [if_pos hl] at h; cases h
  · rw [if_neg hl] at h
    rcases hdt : decode_type (readU32 e data 0) with err | t
    · rw [hdt] at h; cases h
    · rw [hdt] at h
      injection h with h
      subst h
      cases t <;> refine ⟨fun hty => ?_, fun hty => ?_⟩ <;> (try cases hty) <;>
        first
          | rfl
          | exact absurd rfl hty
          | (by_cases hc : readU32 e data 496 = 0xFFFFFFFF <;> simp [hc])

/-- Witness for C2 on the concrete header page `c2data`
(low word 100, high word 1): the assembled size is
`100 ||| (1 <<< 32) = 4294967396`. -/
theorem get_ObjHdr_file_size_assembly_witness :
    c2hdr.file_size = (4294967396 : Int) := by
  have h := (get_ObjHdr_file_size_assembly .le c2data c2hdr (by decide)).1 (by decide)
  rw [h]
  decide

theorem find_first_page_size_some_iff (stream : List Nat) (cs : List Nat)
    (hs : List.Pairwise (fun a b => b < a) cs) (ps : Nat) :
    find_first_page_size stream cs = some ps ↔
      (ps ∈ cs ∧ test_page_size stream ps = true ∧
        ∀ q ∈ cs, ps < q → test_page_size stream q = false) := by
  induction cs with
  | nil => simp [find_first_page_size]
  | cons c cs ih =>
    rcases List.pairwise_cons.mp hs with ⟨hc, hcs⟩
    by_cases htc : test_page_size stream c = true
    · simp only [find_first_page_size, htc, if_true]
      constructor
      · intro h
        injection h with h
        subst h
        refine ⟨List.mem_cons_self _ _, htc, ?_⟩
        intro q hq hlt
        rcases List.mem_cons.mp hq with rfl | hq'
        · exact absurd hlt (Nat.lt_irrefl _)
        · exact absurd (hc q hq') (by omega)
      · rintro ⟨hmem, htest, hmax⟩
        rcases List.mem_cons.mp hmem with rfl | hmem'
        · rfl
        · have hfalse := hmax c (List.mem_cons_self _ _) (hc ps hmem')
          rw [htc] at hfalse
          cases hfalse
    · have htc' : test_page_size stream c = false := by
        cases hval : test_page_size stream c
        · rfl
        · exact absurd hval htc
      simp only [find_first_page_size, htc', Bool.false_eq_true, if_false]
      rw [ih hcs]
      constructor
      · rintro ⟨hmem, htest, hmax⟩
        refine ⟨List.mem_cons_of_mem _ hmem, htest, ?_⟩
        intro q hq hlt
        rcases List.mem_cons.mp hq with rfl | hq'
        · exact htc'
        · exact hmax q hq' hlt
      · rintro ⟨hmem, htest, hmax⟩
        rcases List.mem_cons.mp hmem with rfl | hmem'
        · rw [htest] at htc'
          cases htc'
        · exact ⟨hmem', htest, fun q hq hlt => hmax q (List.mem_cons_of_mem _ hq) hlt⟩

theorem find_first_page_size_none_iff (stream : List Nat) (cs : List Nat) :
    find_first_page_size stream cs = none ↔
      ∀ q ∈ cs, test_page_size stream q = false := by
  induction cs with
  | nil => simp [find_first_page_size]
  | cons c cs ih =>
    by_cases htc : test_page_size stream c = true
    · simp only [find_first_page_size, htc, if_true]
      constructor
      · intro h
        cases h
      · intro h
        rw [h c (List.mem_cons_self c cs)] at htc
        cases htc
    · have htc' : test_page_size stream c = false := by
        cases hval : test_page_size stream c
        · rfl
        · exact absurd hval htc
      simp only [find_first_page_size, htc', Bool.false_eq_true, if_false]
      rw [ih]
      constructor
      · intro h q hq
        rcases List.mem_cons.mp hq with rfl | hq'
        · exact htc'
        · exact h q hq'
      · intro h q hq
        exact h q (List.mem_cons_of_mem _ hq)

theorem spec_first_passing_unique (stream : List Nat) (ps ps' : Nat)
    (h1 : spec_first_passing stream ps) (h2 : spec_first_passing stream ps') :
    ps = ps' := by
  rcases h1 with ⟨m1, t1, f1⟩
  rcases h2 with ⟨m2, t2, f2⟩
  rcases Nat.lt_trichotomy ps ps' with h | h | h
  · rw [f1 ps' m2 h] at t2
    cases t2
  · exact h
  · rw [f2 ps m1 h] at t1
    cases t1

theorem detect_page_size_ok_iff (stream : List Nat) (ps : Nat) :
    detect_page_size stream = .ok ps ↔ spec_first_passing stream ps := by
  rcases hf : find_first_page_size stream allowed_page_size with _ | ps'
  · have hall := (find_first_page_size_none_iff stream allowed_page_size).mp hf
    constructor
    · intro h
      simp [detect_page_size, hf] at h
    · rintro ⟨hmem, htest, _⟩
      rw [hall ps hmem] at htest
      cases htest
  · have hps' : spec_first_passing stream ps' :=
      (find_first_page_size_some_iff stream allowed_page_size (by decide) ps').mp hf
    constructor
    · intro h
      simp only [detect_page_size, hf] at h
      injection h with h
      subst h
      exact hps'
    · intro h
      have heq : ps = ps' := spec_first_passing_unique stream ps ps' h hps'
      subst heq
      simp [detect_page_size, hf]

theorem detect_page_size_err_iff (stream : List Nat) :
    detect_page_size stream = .error .wrongPageSize ↔
      ∀ q ∈ allowed_page_size, test_page_size stream q = false := by
  rw [← find_first_page_size_none_iff]
  unfold detect_page_size
  rcases hf : find_first_page_size stream allowed_page_size with _ | ps' <;> simp [hf]

theorem detect_param_eq_of (stream : List Nat) (endi : Endianness) (hdr : ObjHdr)
    (hnl : ¬ stream.length < 10)
    (hend : detect_endianness (readU32 .le stream 0) = .ok endi)
    (hhdr : get_ObjHdr endi (stream.take yaffs_obj_hdr_size) = .ok hdr) :
    detect_param stream =
      if hdr.name = [] ∧ hdr.alias = [] then .ok ⟨endi, 1, 512, 512 / 32⟩
      else
        match detect_page_size stream with
        | .error err => .error err
        | .ok ps => .ok ⟨endi, 2, ps, ps / 32⟩ := by
  unfold detect_param
  rw [if_neg hnl, hend]
  simp only []
  rw [hhdr]

/-- Claim C3: characterization of `_detect_param`.  When the first decoded
header has empty name and alias, version 1 is assumed with page size 512
and spare size 16.  Otherwise version 2 is assumed and the selected
geometry is `page size = ps`, `spare size = ps / 32` exactly for the
first candidate `ps` in the descending probe order whose post-header
bytes are all `0xFF` (`spec_first_passing`), and the probe fails with the
`WrongPageSize` exception (the spec's `UnknownPageSize`) exactly when
every candidate fails. -/
theorem detect_param_geometry_characterization (stream : List Nat) (endi : Endianness)
    (hdr : ObjHdr) (hlen : 10 ≤ stream.length)
    (hend : detect_endianness (readU32 .le stream 0) = .ok endi)
    (hhdr : get_ObjHdr endi (stream.take yaffs_obj_hdr_size) = .ok hdr) :
    (hdr.name = [] ∧ hdr.alias = [] → detect_param stream = .ok ⟨endi, 1, 512, 16⟩) ∧
    (¬(hdr.name = [] ∧ hdr.alias = []) →
      (∀ ps, detect_param stream = .ok ⟨endi, 2, ps, ps / 32⟩ ↔
        spec_first_passing stream ps) ∧
      (detect_param stream = .error .wrongPageSize ↔
        ∀ q ∈ allowed_page_size, test_page_size stream q = false)) := by
  have hnl : ¬ stream.length < 10 := by omega
  have hred := detect_param_eq_of stream endi hdr hnl hend hhdr
  constructor
  · intro hemp
    rw [hred, if_pos hemp]
  · intro hne
    rw [if_neg hne] at hred
    rcases hps : detect_page_size stream with err | ps'
    · have herr : err = .wrongPageSize := by
        unfold detect_page_size at hps
        rcases hf : find_first_page_size stream allowed_page_size with _ | p <;>
          rw [hf] at hps
        · injection hps with h
          exact h.symm
        · cases hps
      subst herr
      have hall := (detect_page_size_err_iff stream).mp hps
      rw [hps] at hred
      simp only [] at hred
      constructor
      · intro ps
        rw [hred]
        constructor
        · intro h
          cases h
        · rintro ⟨hmem, htest, _⟩
          rw [hall ps hmem] at htest
          cases htest
      · rw [hred]
        exact ⟨fun _ => hall, fun _ => rfl⟩
    · have hspec : spec_first_passing stream ps' :=
        (detect_page_size_ok_iff stream ps').mp hps
      rw [hps] at hred
      simp only [] at hred
      constructor
      · intro ps
        rw [hred]
        constructor
        · intro h
          simp only [Except.ok.injEq, Geometry.mk.injEq] at h
          obtain ⟨-, -, hpp, -⟩ := h
          subst hpp
          exact hspec
        · intro h
          have heq : ps = ps' := spec_first_passing_unique stream ps ps' h hspec
          subst heq
          rfl
      · rw [hred]
        constructor
        · intro h
          cases h
        · intro hall
          have hcontr := (detect_page_size_err_iff stream).mpr hall
          rw [hps] at hcontr
          cases hcontr

/-- Witness for C3 on the concrete stream `c3stream` (512 bytes, first
header a Directory named "a"): version 2 is detected with the largest
candidate page size 16384 and spare size 512. -/
theorem detect_param_geometry_characterization_witness :
    detect_param c3stream = .ok ⟨.le, 2, 16384, 512⟩ := by
  have h := (detect_param_geometry_characterization c3stream .le c3hdr (by decide)
    (by decide) (by decide)).2 (by decide)
  exact (h.1 16384).mpr (by
    refine ⟨by decide, by decide, ?_⟩
    decide)

theorem readU32_le_cons0 (b0 b1 b2 b3 : Nat) (rest : List Nat) :
    readU32 .le (b0 :: b1 :: b2 :: b3 :: rest) 0 =
      b0 + 256 * b1 + 65536 * b2 + 16777216 * b3 := rfl

theorem readU32_le_cons4 (b0 b1 b2 b3 b4 b5 b6 b7 : Nat) (rest : List Nat) :
    readU32 .le (b0 :: b1 :: b2 :: b3 :: b4 :: b5 :: b6 :: b7 :: rest) 4 =
      b4 + 256 * b5 + 65536 * b6 + 16777216 * b7 := rfl

theorem readU32_be_cons0 (b0 b1 b2 b3 : Nat) (rest : List Nat) :
    readU32 .be (b0 :: b1 :: b2 :: b3 :: rest) 0 =
      16777216 * b0 + 65536 * b1 + 256 * b2 + b3 := rfl

theorem readU32_be_cons4 (b0 b1 b2 b3 b4 b5 b6 b7 : Nat) (rest : List Nat) :
    readU32 .be (b0 :: b1 :: b2 :: b3 :: b4 :: b5 :: b6 :: b7 :: rest) 4 =
      16777216 * b4 + 65536 * b5 + 256 * b6 + b7 := rfl

theorem readU16_le_cons8 (b0 b1 b2 b3 b4 b5 b6 b7 b8 b9 : Nat) (rest : List Nat) :
    readU16 .le (b0 :: b1 :: b2 :: b3 :: b4 :: b5 :: b6 :: b7 :: b8 :: b9 :: rest) 8 =
      b8 + 256 * b9 := rfl

theorem readU16_be_cons8 (b0 b1 b2 b3 b4 b5 b6 b7 b8 b9 : Nat) (rest : List Nat) :
    readU16 .be (b0 :: b1 :: b2 :: b3 :: b4 :: b5 :: b6 :: b7 :: b8 :: b9 :: rest) 8 =
      256 * b8 + b9 := rfl

/-- Claim C9 (counterexample): a 10-byte preview whose little-endian type
field is 1 (a value in {1..5}) and whose flag field is `0xFFFF` is
rejected by `detect_yaffs`, because its `parent_id` field holds 2 while
the match patterns additionally require `parent_id = 1`; the claimed
"type in range and flag 0xFFFF" equivalence therefore fails. -/
theorem detect_yaffs_claim_counterexample :
    detect_yaffs [1, 0, 0, 0, 2, 0, 0, 0, 0xFF, 0xFF] = false ∧
    readU32 .le [1, 0, 0, 0, 2, 0, 0, 0, 0xFF, 0xFF] 0 = 1 ∧
    readU16 .le [1, 0, 0, 0, 2, 0, 0, 0, 0xFF, 0xFF] 8 = 0xFFFF := by decide

/-- Claim C9 (amended): for previews made of byte values, `detect_yaffs`
returns true exactly when the preview has at least 10 bytes and, in one
of the two byte orders, the type field decodes to a value in {1..5} (top
byte position for big-endian), the `parent_id` field decodes to 1, and
the flag field is `0xFFFF`. -/
theorem detect_yaffs_characterization (d : List Nat) (hb : ∀ b ∈ d, b < 256) :
    detect_yaffs d = true ↔
      (10 ≤ d.length ∧
        ((readU32 .le d 0 ∈ [1, 2, 3, 4, 5] ∧ readU32 .le d 4 = 1 ∧
           readU16 .le d 8 = 0xFFFF) ∨
         (readU32 .be d 0 ∈ [1, 2, 3, 4, 5] ∧ readU32 .be d 4 = 1 ∧
           readU16 .be d 8 = 0xFFFF))) := by
  rcases d with _ | ⟨b0, _ | ⟨b1, _ | ⟨b2, _ | ⟨b3, _ | ⟨b4, _ | ⟨b5, _ | ⟨b6, _ |
    ⟨b7, _ | ⟨b8, _ | ⟨b9, rest⟩⟩⟩⟩⟩⟩⟩⟩⟩⟩
  case cons.cons.cons.cons.cons.cons.cons.cons.cons.cons =>
    have h0 : b0 < 256 := hb b0 (by simp)
    have h1 : b1 < 256 := hb b1 (by simp)
    have h2 : b2 < 256 := hb b2 (by simp)
    have h3 : b3 < 256 := hb b3 (by simp)
    have h4 : b4 < 256 := hb b4 (by simp)
    have h5 : b5 < 256 := hb b5 (by simp)
    have h6 : b6 < 256 := hb b6 (by simp)
    have h7 : b7 < 256 := hb b7 (by simp)
    have h8 : b8 < 256 := hb b8 (by simp)
    have h9 : b9 < 256 := hb b9 (by simp)
    simp only [detect_yaffs, yaffs_le_match, yaffs_be_match, Bool.or_eq_true,
      decide_eq_true_eq, readU32_le_cons0, readU32_le_cons4, readU32_be_cons0,
      readU32_be_cons4, readU16_le_cons8, readU16_be_cons8, List.length_cons,
      List.mem_cons, List.not_mem_nil, or_false]
    omega
  all_goals simp [detect_yaffs, yaffs_le_match, yaffs_be_match]

/-- Witness for the amended C9 on the valid little-endian preview
`01 00 00 00 01 00 00 00 FF FF`. -/
theorem detect_yaffs_characterization_witness :
    detect_yaffs [1, 0, 0, 0, 1, 0, 0, 0, 0xFF, 0xFF] = true :=
  (detect_yaffs_characterization [1, 0, 0, 0, 1, 0, 0, 0, 0xFF, 0xFF] (by decide)).mpr
    ⟨by decide, Or.inl ⟨by decide, by decide, by decide⟩⟩

/-- Witness for C5 at the concrete type value 3: little-endian detected. -/
theorem detect_endianness_characterization_witness :
    detect_endianness 3 = .ok .le :=
  (detect_endianness_characterization 3).1.mpr (by decide)
